import Mathlib

/-!
Verification of `epsilon.py` — an SVN-to-Discord webhook bridge.

The Python source is shallowly embedded here:
* Python strings are modelled as `List Char` (`Str`), so that slicing
  (`[0:-1]` is `List.dropLast`), `str.split` (`List.splitOn`) and
  concatenation are the corresponding list operations.
* The commit-formatting code (lines 106–127 of `epsilon.py`) is the pure
  function `formatCommit` below, built exactly as the source builds the
  string from `commit_header_template`, `commit_modeline_template` and
  `commit_template`.
* The polling loop (lines 96–142) is the step function `stepPoll`: one
  iteration of `while True`, taking the environment's responses (SVN
  `info()`, `log_default(...)`, `hook.send(...)`) as a `PollOracle`.
  `svn.exception.SvnException` is the only exception caught by the
  `except` clause; any exception raised by `hook.send` propagates, which
  the model renders as `Except.error` (the loop terminates).
-/

namespace Epsilon

/-- A Python string, modelled as its list of characters. -/
abbrev Str := List Char

/-- The newline character, around which `epsilon.py` splits and joins. -/
def nl : Char := '\n'

/-- One SVN log entry as consumed by the loop body (`log.revision`,
`log.author`, `log.date` already rendered through
`strftime(hook_commit_dateformat)` — an external library call whose output
string we carry as the field `cdate` — `log.msg`, and `log.changelist`
as (change-kind, path) pairs, accessed as `c[0]` and `c[1]`). -/
structure CommitRecord where
  revision : Int
  author : Str
  cdate : Str
  msg : Str
  changelist : List (Str × Str)
deriving DecidableEq

/-- `commit_linecount = log.msg.count('\n') + 1` (line 107). -/
def lineCount (msg : Str) : Nat := msg.count nl + 1

/-- `linestr = "line" if commit_linecount == 1 else "lines"` (line 108). -/
def lineStr (msg : Str) : Str :=
  if lineCount msg = 1 then "line".toList else "lines".toList

/-- The header, `commit_header_template.format(...)` (lines 20, 109–111):
`r{revision} | {author} | {cdate} | {linecount} {linestr}`. -/
def commitHeader (r : CommitRecord) : Str :=
  "r".toList ++ (toString r.revision).toList
    ++ " | ".toList ++ r.author
    ++ " | ".toList ++ r.cdate
    ++ " | ".toList ++ (toString (lineCount r.msg)).toList
    ++ " ".toList ++ lineStr r.msg

/-- `commit_separator = "-" * len(commit_header)` (line 113). -/
def commitSeparator (r : CommitRecord) : Str :=
  List.replicate (commitHeader r).length '-'

/-- One changed-path line, `commit_modeline_template.format(...)`
(lines 21, 116): `{mode} | {filepath}`. -/
def modeline (c : Str × Str) : Str := c.1 ++ " | ".toList ++ c.2

/-- The accumulated changed-paths string before the final slice
(lines 114–117): each modeline followed by a newline, concatenated. -/
def changesRaw (cl : List (Str × Str)) : Str :=
  cl.foldl (fun acc c => acc ++ modeline c ++ [nl]) []

/-- `commit_changes = commit_changes[0:-1]` (line 118): Python's
`[0:-1]` slice drops the last character (and maps `""` to `""`),
which is `List.dropLast`. -/
def changesBlock (cl : List (Str × Str)) : Str :=
  (changesRaw cl).dropLast

/-- The indented commit-message block (lines 120–124): for each piece of
`log.msg.split("\n")`, append four spaces, the piece, and a newline. -/
def messageBlock (msg : Str) : Str :=
  (msg.splitOn nl).foldl (fun acc m => acc ++ "    ".toList ++ m ++ [nl]) []

/-- The full block, `commit_template.format(...)` (lines 22, 126–127):
a fenced code block containing header, separator, changed paths,
separator again, and the commit message. -/
def formatCommit (r : CommitRecord) : Str :=
  "```\n".toList ++ commitHeader r
    ++ [nl] ++ commitSeparator r
    ++ "\nChanged paths:\n".toList ++ changesBlock r.changelist
    ++ [nl] ++ commitSeparator r
    ++ "\nCommit message:\n".toList ++ messageBlock r.msg
    ++ "\n```".toList

/-- `svn.exception.SvnException`: the only exception class caught by the
loop's `except` clause (line 134). Raised by `svn_client.info()` and by
`svn_client.log_default(...)`. -/
inductive SvnErr
| contact
deriving DecidableEq

/-- An exception raised by `hook.send(...)` (a `requests`/`dhooks` error,
never an `svn.exception.SvnException`), so it is NOT caught by the
`except svn.exception.SvnException` clause. -/
inductive DeliveryErr
| hookFail
deriving DecidableEq

/-- The environment's responses during one loop iteration:
`svn_client.info()["commit_revision"]` (line 99), `svn_client.log_default`
called with the computed range (line 104), and `hook.send` on a formatted
commit string (line 130). -/
structure PollOracle where
  info : Except SvnErr Int
  fetchLog : Int → Int → Except SvnErr (List CommitRecord)
  send : Str → Except DeliveryErr Unit

/-- Deliver the fetched commits in order (lines 105–131): format each one
and send it; the first `hook.send` exception aborts the iteration. -/
def deliverAll (send : Str → Except DeliveryErr Unit) :
    List CommitRecord → Except DeliveryErr Unit
  | [] => Except.ok ()
  | l :: ls =>
    match send (formatCommit l) with
    | Except.error e => Except.error e
    | Except.ok _ => deliverAll send ls

/-- The delta the loop fetches: lines 102–104 test `c_rev > p_rev` and
fetch `revision_from = p_rev + 1`, `revision_to = c_rev`. -/
def computeDelta (p_rev c_rev : Int) : Option (Int × Int) :=
  if c_rev > p_rev then some (p_rev + 1, c_rev) else none

/-- The loop's mutable state: `p_rev` (last confirmed revision) and
`delay_increment` (backoff seconds added to the poll interval). -/
structure LoopState where
  p_rev : Int
  delay : Nat
deriving DecidableEq

/-- `delay_increment = min(delay_increment + 15, 120)` (line 137). -/
def bumpDelay (d : Nat) : Nat := min (d + 15) 120

/-- One iteration of the `while True` loop (lines 97–142).
`Except.ok (newState, sleepSeconds)` means the iteration reached
`time.sleep(args.poll_time + delay_increment)`; `Except.error e` means an
exception not matching `except svn.exception.SvnException` escaped the
loop (only `hook.send` raises such an exception here). The `else` clause
(lines 138–140) runs exactly when no exception was raised: it resets the
backoff and sets `p_rev = c_rev` unconditionally. -/
def stepPoll (pollTime : Nat) (st : LoopState) (o : PollOracle) :
    Except DeliveryErr (LoopState × Nat) :=
  match o.info with
  | Except.error _ =>
    Except.ok (⟨st.p_rev, bumpDelay st.delay⟩, pollTime + bumpDelay st.delay)
  | Except.ok c_rev =>
    match computeDelta st.p_rev c_rev with
    | none => Except.ok (⟨c_rev, 0⟩, pollTime + 0)
    | some (f, t) =>
      match o.fetchLog f t with
      | Except.error _ =>
        Except.ok (⟨st.p_rev, bumpDelay st.delay⟩, pollTime + bumpDelay st.delay)
      | Except.ok logs =>
        match deliverAll o.send logs with
        | Except.error e => Except.error e
        | Except.ok _ => Except.ok (⟨c_rev, 0⟩, pollTime + 0)

/-- Several successive loop iterations; an uncaught exception terminates
the run, so no later oracle is ever consulted. -/
def runPolls (pollTime : Nat) (st : LoopState) :
    List PollOracle → Except DeliveryErr LoopState
  | [] => Except.ok st
  | o :: os =>
    match stepPoll pollTime st o with
    | Except.error e => Except.error e
    | Except.ok (st1, _) => runPolls pollTime st1 os

/-- The HEAD revisions successfully returned by `svn_client.info()` over a
sequence of polls. -/
def observedHeads (os : List PollOracle) : List Int :=
  os.filterMap fun o => o.info.toOption

/-- Line 81: `c_rev = args.initial_revision if args.initial_revision else
svn_startup_info["commit_revision"]` — Python truthiness, so `None` AND
`0` both fall back to the startup HEAD. -/
def seedRevision (initialRevision : Option Int) (startupHead : Int) : Int :=
  match initialRevision with
  | none => startupHead
  | some r => if r = 0 then startupHead else r

/-- An `info()` head of `h` with a successful fetch of `logs` and all
deliveries succeeding. -/
def oHead (h : Int) (logs : List CommitRecord) : PollOracle :=
  ⟨Except.ok h, fun _ _ => Except.ok logs, fun _ => Except.ok ()⟩

/-- `svn_client.info()` raises `SvnException`. -/
def oInfoFail : PollOracle :=
  ⟨Except.error SvnErr.contact, fun _ _ => Except.error SvnErr.contact,
    fun _ => Except.ok ()⟩

/-- `info()` returns `h` but `log_default` raises `SvnException`. -/
def oFetchFail (h : Int) : PollOracle :=
  ⟨Except.ok h, fun _ _ => Except.error SvnErr.contact, fun _ => Except.ok ()⟩

/-- `info()` returns `h`, the fetch succeeds, and every `hook.send`
raises a delivery error. -/
def oSendFail (h : Int) (logs : List CommitRecord) : PollOracle :=
  ⟨Except.ok h, fun _ _ => Except.ok logs, fun _ => Except.error DeliveryErr.hookFail⟩

/-- A concrete commit used in witnesses and counterexamples. -/
def recM : CommitRecord :=
  ⟨4, "ann".toList, "2021-05-01 10:00:00 +0000 (Sat, 01 May 2021)".toList,
    "fix bug".toList, [("M".toList, "/trunk/a.py".toList)]⟩

/-! ### Helper lemmas about the string-building patterns of the source -/

theorem foldl_sep {α : Type} (g : α → Str) (l : List α) :
    ∀ acc : Str,
      List.foldl (fun a x => a ++ g x ++ [nl]) acc l
        = acc ++ (l.map fun x => g x ++ [nl]).flatten := by
  induction l with
  | nil => intro acc; simp
  | cons x xs ih =>
    intro acc
    simp only [List.foldl_cons]
    rw [ih]
    simp [List.append_assoc]

theorem intercalate_cons_cons (q r : Str) (rs : List Str) :
    List.intercalate [nl] (q :: r :: rs) = q ++ [nl] ++ List.intercalate [nl] (r :: rs) := by
  simp [List.intercalate, List.append_assoc]

theorem flatten_sep (qs : List Str) (h : qs ≠ []) :
    (qs.map fun q => q ++ [nl]).flatten = List.intercalate [nl] qs ++ [nl] := by
  induction qs with
  | nil => cases h rfl
  | cons q qs ih =>
    cases qs with
    | nil => simp [List.intercalate]
    | cons r rs =>
      have hne : r :: rs ≠ [] := List.cons_ne_nil r rs
      rw [List.map_cons, List.flatten_cons, ih hne, intercalate_cons_cons]
      simp [List.append_assoc]

theorem intercalate_append_nil (qs : List Str) (h : qs ≠ []) :
    List.intercalate [nl] (qs ++ [[]]) = List.intercalate [nl] qs ++ [nl] := by
  induction qs with
  | nil => cases h rfl
  | cons q qs ih =>
    cases qs with
    | nil => simp [List.intercalate]
    | cons r rs =>
      have hne : r :: rs ≠ [] := List.cons_ne_nil r rs
      rw [show (q :: r :: rs) ++ [[]] = q :: r :: (rs ++ [[]]) from rfl,
        intercalate_cons_cons,
        show r :: (rs ++ [[]]) = (r :: rs) ++ [[]] from rfl,
        ih hne, intercalate_cons_cons]
      simp [List.append_assoc]

theorem modifyHead_append (f : Str → Str) (l1 l2 : List Str) (h : l1 ≠ []) :
    (l1 ++ l2).modifyHead f = l1.modifyHead f ++ l2 := by
  cases l1 with
  | nil => cases h rfl
  | cons a l => simp

theorem splitOn_append_nl (msg : Str) :
    (msg ++ [nl]).splitOn nl = msg.splitOn nl ++ [[]] := by
  induction msg with
  | nil => decide
  | cons c cs ih =>
    simp only [List.splitOn] at ih ⊢
    rw [List.cons_append, List.splitOnP_cons, List.splitOnP_cons]
    by_cases hc : (c == nl) = true
    · rw [if_pos hc, if_pos hc, ih, List.cons_append]
    · rw [if_neg hc, if_neg hc, ih,
        modifyHead_append _ _ _ (List.splitOnP_ne_nil _ cs)]

theorem messageBlock_flatten (msg : Str) :
    messageBlock msg
      = ((msg.splitOn nl).map fun m => ("    ".toList ++ m) ++ [nl]).flatten := by
  have hfun :
      (fun (a : Str) m => a ++ "    ".toList ++ m ++ [nl])
        = fun (a : Str) m => a ++ ("    ".toList ++ m) ++ [nl] := by
    funext a m
    simp [List.append_assoc]
  rw [messageBlock, hfun, foldl_sep (fun m => "    ".toList ++ m) (msg.splitOn nl) []]
  simp

theorem changesRaw_flatten (cl : List (Str × Str)) :
    changesRaw cl = (cl.map fun c => modeline c ++ [nl]).flatten := by
  rw [changesRaw, foldl_sep modeline cl []]
  simp

/-! ### Claims about the commit formatter -/

/-- C6: `formatCommit` is a pure function, hence deterministic; the header
is exactly `r<revision> | <author> | <timestamp> | <N> <unit>` where
`N` is the number of newline characters in the message plus one and the
unit word is `line` precisely when `N = 1`; and the separator is a run of
`-` characters whose length equals the header's length. -/
theorem c6_header_separator_deterministic (r : CommitRecord) :
    (commitSeparator r).length = (commitHeader r).length
    ∧ (∀ ch ∈ commitSeparator r, ch = '-')
    ∧ commitHeader r
        = "r".toList ++ (toString r.revision).toList
            ++ " | ".toList ++ r.author
            ++ " | ".toList ++ r.cdate
            ++ " | ".toList ++ (toString (r.msg.count nl + 1)).toList
            ++ " ".toList
            ++ (if r.msg.count nl + 1 = 1 then "line".toList else "lines".toList)
    ∧ (∀ r2 : CommitRecord, r = r2 → formatCommit r = formatCommit r2) := by
  refine ⟨by simp [commitSeparator], ?_, rfl, ?_⟩
  · intro ch hch
    exact List.eq_of_mem_replicate hch
  · intro r2 h
    rw [h]

/-- C6 witness: the general theorem applied to the concrete commit `recM`. -/
theorem c6_witness :
    (commitSeparator recM).length = (commitHeader recM).length
    ∧ formatCommit recM = formatCommit recM :=
  ⟨(c6_header_separator_deterministic recM).1,
    (c6_header_separator_deterministic recM).2.2.2 recM rfl⟩

/-- C5 counterexample: for the message `"a\n"` (which ends in a newline)
the rendered message block is `"    a\n    \n"` — the trailing piece of
the split is rendered as a line of four spaces, NOT suppressed, so the
section is not `"    a\n"` as the claim requires. -/
theorem c5_counterexample :
    messageBlock ("a\n").toList = ("    a\n    \n").toList
    ∧ messageBlock ("a\n").toList ≠ ("    a\n").toList := by
  exact ⟨by decide, by decide⟩

/-- C5 amended: the message block renders one 4-space-prefixed,
newline-terminated line per piece of `msg.split("\n")` — including the
empty final piece when the message ends in a newline, which renders as a
line of four spaces. Nothing is suppressed: appending a newline to the
message appends a four-space line to the rendered block. -/
theorem c5_message_lines_amended (msg : Str) :
    messageBlock msg
      = List.intercalate [nl]
          (((msg.splitOn nl).map fun m => "    ".toList ++ m) ++ [[]])
    ∧ messageBlock (msg ++ [nl]) = messageBlock msg ++ "    ".toList ++ [nl] := by
  constructor
  · rw [messageBlock_flatten]
    have hq : (msg.splitOn nl).map (fun m => "    ".toList ++ m) ≠ [] := by
      simp [List.splitOn, List.splitOnP_ne_nil]
    rw [show ((msg.splitOn nl).map fun m => ("    ".toList ++ m) ++ [nl])
          = (((msg.splitOn nl).map fun m => "    ".toList ++ m).map fun q => q ++ [nl])
        from by rw [List.map_map]; rfl]
    rw [flatten_sep _ hq, intercalate_append_nil _ hq]
  · rw [messageBlock_flatten, messageBlock_flatten, splitOn_append_nl]
    simp [List.append_assoc]

/-- C9: for every non-empty changed-path list, the character removed by the
`[0:-1]` slice is exactly the final generated newline: the raw block is the
final block plus one `\n`, the final block is the modelines joined by
single newlines (last entry intact, no trailing blank line), and — when no
modeline contains a newline — splitting the block on `\n` returns exactly
one `<code> | <path>` line per entry, in order. -/
theorem c9_changed_paths_block (cl : List (Str × Str)) (h : cl ≠ []) :
    changesRaw cl = changesBlock cl ++ [nl]
    ∧ changesBlock cl = List.intercalate [nl] (cl.map modeline)
    ∧ ((∀ p ∈ cl.map modeline, nl ∉ p) →
        (changesBlock cl).splitOn nl = cl.map modeline) := by
  have hq : cl.map modeline ≠ [] := by
    simpa using h
  have hraw : changesRaw cl = List.intercalate [nl] (cl.map modeline) ++ [nl] := by
    rw [changesRaw_flatten]
    rw [show (cl.map fun c => modeline c ++ [nl])
          = ((cl.map modeline).map fun q => q ++ [nl]) from by rw [List.map_map]; rfl]
    exact flatten_sep _ hq
  have hblock : changesBlock cl = List.intercalate [nl] (cl.map modeline) := by
    rw [changesBlock, hraw, List.dropLast_concat]
  refine ⟨by rw [hblock, ← hraw], hblock, ?_⟩
  intro hx
  rw [hblock]
  exact List.splitOn_intercalate _ nl hx hq

/-- C9 witness: the theorem applied to the two-entry changed-path list of
the spec's boundary test. -/
theorem c9_witness :
    changesBlock [("M".toList, "/trunk/a.py".toList), ("A".toList, "/trunk/b.py".toList)]
      = List.intercalate [nl]
          ([("M".toList, "/trunk/a.py".toList), ("A".toList, "/trunk/b.py".toList)].map modeline)
    ∧ (changesBlock [("M".toList, "/trunk/a.py".toList), ("A".toList, "/trunk/b.py".toList)]).splitOn nl
      = [("M".toList, "/trunk/a.py".toList), ("A".toList, "/trunk/b.py".toList)].map modeline :=
  ⟨(c9_changed_paths_block _ (by decide)).2.1,
    (c9_changed_paths_block _ (by decide)).2.2 (by decide)⟩

/-- C8 counterexample: for a commit with an empty changed-path list, the
line after the `Changed paths:` label is an empty line, and the second
separator only comes after it — so the label is NOT immediately followed
by the separator. -/
theorem c8_counterexample :
    ((formatCommit ⟨1, "a".toList, "d".toList, "m".toList, []⟩).splitOn nl).get? 3
        = some ("Changed paths:").toList
    ∧ ((formatCommit ⟨1, "a".toList, "d".toList, "m".toList, []⟩).splitOn nl).get? 4
        = some []
    ∧ ((formatCommit ⟨1, "a".toList, "d".toList, "m".toList, []⟩).splitOn nl).get? 5
        = some (commitSeparator ⟨1, "a".toList, "d".toList, "m".toList, []⟩)
    ∧ ((formatCommit ⟨1, "a".toList, "d".toList, "m".toList, []⟩).splitOn nl).get? 4
        ≠ some (commitSeparator ⟨1, "a".toList, "d".toList, "m".toList, []⟩) := by
  exact ⟨by decide, by decide, by decide, by decide⟩

/-- C8 amended: a commit with an empty changed-path list still emits the
`Changed paths:` label and zero path lines, but the label is followed by
exactly one empty line (the template's newline around the empty changes
block) before the second separator. -/
theorem c8_empty_changelist_amended (r : CommitRecord) (h : r.changelist = []) :
    changesBlock r.changelist = []
    ∧ formatCommit r
        = "```\n".toList ++ commitHeader r
            ++ [nl] ++ commitSeparator r
            ++ "\nChanged paths:\n".toList
            ++ [nl] ++ commitSeparator r
            ++ "\nCommit message:\n".toList ++ messageBlock r.msg
            ++ "\n```".toList := by
  have hb : changesBlock r.changelist = [] := by
    rw [h]
    rfl
  refine ⟨hb, ?_⟩
  rw [formatCommit, hb]
  simp

/-- C8 witness: the amended theorem applied to a concrete commit with an
empty changed-path list. -/
theorem c8_witness :
    changesBlock (⟨1, "a".toList, "d".toList, "m".toList, []⟩ : CommitRecord).changelist
      = [] :=
  (c8_empty_changelist_amended ⟨1, "a".toList, "d".toList, "m".toList, []⟩ rfl).1

/-! ### Helper lemmas about the polling loop -/

theorem stepPoll_info_error (pt : Nat) (st : LoopState) (o : PollOracle) (e : SvnErr)
    (h : o.info = Except.error e) :
    stepPoll pt st o
      = Except.ok (⟨st.p_rev, bumpDelay st.delay⟩, pt + bumpDelay st.delay) := by
  simp [stepPoll, h]

theorem stepPoll_no_delta (pt : Nat) (st : LoopState) (o : PollOracle) (c : Int)
    (h : o.info = Except.ok c) (hd : computeDelta st.p_rev c = none) :
    stepPoll pt st o = Except.ok (⟨c, 0⟩, pt + 0) := by
  simp [stepPoll, h, hd]

theorem stepPoll_fetch_error (pt : Nat) (st : LoopState) (o : PollOracle) (c f t : Int)
    (e : SvnErr) (h : o.info = Except.ok c) (hd : computeDelta st.p_rev c = some (f, t))
    (hf : o.fetchLog f t = Except.error e) :
    stepPoll pt st o
      = Except.ok (⟨st.p_rev, bumpDelay st.delay⟩, pt + bumpDelay st.delay) := by
  simp [stepPoll, h, hd, hf]

theorem stepPoll_delivered (pt : Nat) (st : LoopState) (o : PollOracle) (c f t : Int)
    (logs : List CommitRecord) (h : o.info = Except.ok c)
    (hd : computeDelta st.p_rev c = some (f, t)) (hf : o.fetchLog f t = Except.ok logs)
    (hs : deliverAll o.send logs = Except.ok ()) :
    stepPoll pt st o = Except.ok (⟨c, 0⟩, pt + 0) := by
  simp [stepPoll, h, hd, hf, hs]

theorem stepPoll_send_error (pt : Nat) (st : LoopState) (o : PollOracle) (c f t : Int)
    (logs : List CommitRecord) (e : DeliveryErr) (h : o.info = Except.ok c)
    (hd : computeDelta st.p_rev c = some (f, t)) (hf : o.fetchLog f t = Except.ok logs)
    (hs : deliverAll o.send logs = Except.error e) :
    stepPoll pt st o = Except.error e := by
  simp [stepPoll, h, hd, hf, hs]

theorem runPolls_cons_ok (pt : Nat) (st st1 : LoopState) (o : PollOracle)
    (os : List PollOracle) (s : Nat) (h : stepPoll pt st o = Except.ok (st1, s)) :
    runPolls pt st (o :: os) = runPolls pt st1 os := by
  simp [runPolls, h]

theorem runPolls_cons_error (pt : Nat) (st : LoopState) (o : PollOracle)
    (os : List PollOracle) (e : DeliveryErr) (h : stepPoll pt st o = Except.error e) :
    runPolls pt st (o :: os) = Except.error e := by
  simp [runPolls, h]

theorem observedHeads_cons_error (o : PollOracle) (os : List PollOracle) (e : SvnErr)
    (h : o.info = Except.error e) :
    observedHeads (o :: os) = observedHeads os := by
  simp [observedHeads, h, Except.toOption]

theorem observedHeads_cons_ok (o : PollOracle) (os : List PollOracle) (c : Int)
    (h : o.info = Except.ok c) :
    observedHeads (o :: os) = c :: observedHeads os := by
  simp [observedHeads, h, Except.toOption]

theorem stepPoll_ok_delay_le (pt : Nat) (st : LoopState) (o : PollOracle)
    (st1 : LoopState) (s : Nat) (h : stepPoll pt st o = Except.ok (st1, s)) :
    st1.delay = 0 ∨ st1.delay = bumpDelay st.delay := by
  cases hinfo : o.info with
  | error e =>
    rw [stepPoll_info_error pt st o e hinfo] at h
    cases h
    exact Or.inr rfl
  | ok c =>
    cases hd : computeDelta st.p_rev c with
    | none =>
      rw [stepPoll_no_delta pt st o c hinfo hd] at h
      cases h
      exact Or.inl rfl
    | some ft =>
      obtain ⟨f, t⟩ := ft
      cases hf : o.fetchLog f t with
      | error e =>
        rw [stepPoll_fetch_error pt st o c f t e hinfo hd hf] at h
        cases h
        exact Or.inr rfl
      | ok logs =>
        cases hs : deliverAll o.send logs with
        | error e =>
          rw [stepPoll_send_error pt st o c f t logs e hinfo hd hf hs] at h
          cases h
        | ok u =>
          rw [stepPoll_delivered pt st o c f t logs hinfo hd hf hs] at h
          cases h
          exact Or.inl rfl

/-! ### Claims about the polling loop -/

/-- C1 amended: the loop computes the delta `[p_rev+1 .. c_rev]`, and
advances `p_rev` to the fetched batch's `toRevision` exactly when every
commit of the batch was delivered without error.  If FETCHING fails
(`SvnException`, caught), `p_rev` stays put, backoff grows, and the delta
computed on the next poll against any head `h2 > p_rev` is again
`[p_rev+1 .. h2]` — no commit lost or skipped.  If DELIVERY fails
mid-batch, `p_rev` is likewise not advanced, but the exception is not
caught: the iteration returns `Except.error`, so no next poll happens in
this process. -/
theorem c1_batch_atomic_amended (pt : Nat) (st : LoopState) (o : PollOracle) (c : Int)
    (hinfo : o.info = Except.ok c) (hgt : st.p_rev < c) :
    computeDelta st.p_rev c = some (st.p_rev + 1, c)
    ∧ (∀ logs, o.fetchLog (st.p_rev + 1) c = Except.ok logs →
        (deliverAll o.send logs = Except.ok () →
          stepPoll pt st o = Except.ok (⟨c, 0⟩, pt + 0))
        ∧ ∀ e, deliverAll o.send logs = Except.error e →
            stepPoll pt st o = Except.error e)
    ∧ (∀ e, o.fetchLog (st.p_rev + 1) c = Except.error e →
        stepPoll pt st o
          = Except.ok (⟨st.p_rev, bumpDelay st.delay⟩, pt + bumpDelay st.delay)
        ∧ ∀ h2, st.p_rev < h2 → computeDelta st.p_rev h2 = some (st.p_rev + 1, h2)) := by
  have hd : computeDelta st.p_rev c = some (st.p_rev + 1, c) := by
    simp [computeDelta, hgt]
  refine ⟨hd, ?_, ?_⟩
  · intro logs hf
    exact ⟨fun hs => stepPoll_delivered pt st o c _ _ logs hinfo hd hf hs,
      fun e hs => stepPoll_send_error pt st o c _ _ logs e hinfo hd hf hs⟩
  · intro e hf
    refine ⟨stepPoll_fetch_error pt st o c _ _ e hinfo hd hf, ?_⟩
    intro h2 hgt2
    simp [computeDelta, hgt2]

/-- C1 witness: the amended theorem at concrete inputs — a fetch failure
keeps `p_rev = 3` with backoff, the retried delta against head 9 is
`[4 .. 9]`, and a fully delivered batch advances `p_rev` to the head 7. -/
theorem c1_witness :
    stepPoll 120 ⟨3, 0⟩ (oFetchFail 7) = Except.ok (⟨3, 15⟩, 135)
    ∧ computeDelta 3 9 = some (4, 9)
    ∧ stepPoll 120 ⟨3, 0⟩ (oHead 7 [recM]) = Except.ok (⟨7, 0⟩, 120) := by
  obtain ⟨-, -, hferr⟩ :=
    c1_batch_atomic_amended 120 ⟨3, 0⟩ (oFetchFail 7) 7 rfl (by decide)
  obtain ⟨-, hok, -⟩ :=
    c1_batch_atomic_amended 120 ⟨3, 0⟩ (oHead 7 [recM]) 7 rfl (by decide)
  obtain ⟨h1, h2⟩ := hferr SvnErr.contact rfl
  exact ⟨h1, h2 9 (by decide), (hok [recM] rfl).1 rfl⟩

/-- C1 as stated is false for delivery failures: after a mid-batch
delivery failure the uncaught exception terminates the loop, so there is
no "next poll" whose delta could be `[r+1 .. h]` — the run below never
consults its second oracle. -/
theorem c1_counterexample :
    runPolls 120 ⟨3, 0⟩ [oSendFail 5 [recM], oHead 9 []]
      = Except.error DeliveryErr.hookFail := rfl

/-- C2 amended: a mid-batch `hook.send` failure aborts the batch without
advancing `p_rev` and without touching the backoff — but it is NOT
recovered locally: `except svn.exception.SvnException` does not match it,
so the exception escapes the loop (`Except.error`) and ends the process;
only repository-contact failures are converted into backoff plus a log
entry. -/
theorem c2_delivery_error_uncaught (pt : Nat) (st : LoopState) (o : PollOracle)
    (c : Int) (logs : List CommitRecord) (e : DeliveryErr)
    (hinfo : o.info = Except.ok c) (hgt : st.p_rev < c)
    (hfetch : o.fetchLog (st.p_rev + 1) c = Except.ok logs)
    (hsend : deliverAll o.send logs = Except.error e) :
    stepPoll pt st o = Except.error e := by
  have hd : computeDelta st.p_rev c = some (st.p_rev + 1, c) := by
    simp [computeDelta, hgt]
  exact stepPoll_send_error pt st o c _ _ logs e hinfo hd hfetch hsend

/-- C2 witness: the amended theorem at a concrete state and oracle. -/
theorem c2_witness :
    stepPoll 100 ⟨5, 7⟩ (oSendFail 6 [recM]) = Except.error DeliveryErr.hookFail :=
  c2_delivery_error_uncaught 100 ⟨5, 7⟩ (oSendFail 6 [recM]) 6 [recM]
    DeliveryErr.hookFail rfl (by decide) rfl rfl

/-- C2 as stated is false: a delivery failure is surfaced beyond a log
entry — the iteration does not end in a sleeping state with increased
backoff, it ends the loop with an uncaught exception. -/
theorem c2_counterexample :
    stepPoll 100 ⟨5, 0⟩ (oSendFail 6 [recM]) = Except.error DeliveryErr.hookFail
    ∧ stepPoll 100 ⟨5, 0⟩ (oSendFail 6 [recM])
        ≠ Except.ok (⟨5, bumpDelay 0⟩, 100 + bumpDelay 0) := by
  refine ⟨rfl, ?_⟩
  intro h
  exact Except.noConfusion h

/-- C3 amended: `p_rev` is non-decreasing and stays within the observed
HEADs provided the seed is below the first observed HEAD and the HEADs
are non-decreasing (`Chain'` of `≤` over seed then heads).  Without that
proviso the claim is false (see the counterexample): the `else` clause
sets `p_rev = c_rev` unconditionally, so an operator-supplied seed larger
than the observed HEAD is overwritten downwards. -/
theorem c3_monotone_amended (pt : Nat) (os : List PollOracle) :
    ∀ st fin : LoopState,
      runPolls pt st os = Except.ok fin →
      List.Chain' (· ≤ ·) (st.p_rev :: observedHeads os) →
      st.p_rev ≤ fin.p_rev ∧ fin.p_rev ∈ st.p_rev :: observedHeads os := by
  induction os with
  | nil =>
    intro st fin hrun _
    simp only [runPolls, Except.ok.injEq] at hrun
    subst hrun
    exact ⟨le_refl _, List.mem_cons_self _ _⟩
  | cons o os ih =>
    intro st fin hrun hchain
    cases hinfo : o.info with
    | error e =>
      rw [runPolls_cons_ok pt st ⟨st.p_rev, bumpDelay st.delay⟩ o os _
        (stepPoll_info_error pt st o e hinfo)] at hrun
      rw [observedHeads_cons_error o os e hinfo] at hchain ⊢
      exact ih ⟨st.p_rev, bumpDelay st.delay⟩ fin hrun hchain
    | ok c =>
      rw [observedHeads_cons_ok o os c hinfo] at hchain ⊢
      obtain ⟨hpc, hc⟩ := List.chain'_cons.mp hchain
      have hnext : ∀ fin2 : LoopState,
          runPolls pt ⟨c, 0⟩ os = Except.ok fin2 →
          st.p_rev ≤ fin2.p_rev ∧ fin2.p_rev ∈ st.p_rev :: c :: observedHeads os := by
        intro fin2 hrun2
        obtain ⟨h1, h2⟩ := ih ⟨c, 0⟩ fin2 hrun2 hc
        exact ⟨le_trans hpc h1, List.mem_cons_of_mem _ h2⟩
      cases hd : computeDelta st.p_rev c with
      | none =>
        rw [runPolls_cons_ok pt st ⟨c, 0⟩ o os _
          (stepPoll_no_delta pt st o c hinfo hd)] at hrun
        exact hnext fin hrun
      | some ft =>
        obtain ⟨f, t⟩ := ft
        cases hf : o.fetchLog f t with
        | error e =>
          rw [runPolls_cons_ok pt st ⟨st.p_rev, bumpDelay st.delay⟩ o os _
            (stepPoll_fetch_error pt st o c f t e hinfo hd hf)] at hrun
          have hchain2 : List.Chain' (· ≤ ·) (st.p_rev :: observedHeads os) := by
            cases hh : observedHeads os with
            | nil => simp
            | cons h1 t1 =>
              rw [hh] at hc
              obtain ⟨hch1, hct⟩ := List.chain'_cons.mp hc
              exact List.chain'_cons.mpr ⟨le_trans hpc hch1, hct⟩
          obtain ⟨h1, h2⟩ := ih ⟨st.p_rev, bumpDelay st.delay⟩ fin hrun hchain2
          refine ⟨h1, ?_⟩
          rcases List.mem_cons.mp h2 with h3 | h3
          · rw [h3]
            exact List.mem_cons_self _ _
          · exact List.mem_cons_of_mem _ (List.mem_cons_of_mem _ h3)
        | ok logs =>
          cases hs : deliverAll o.send logs with
          | error e =>
            rw [runPolls_cons_error pt st o os e
              (stepPoll_send_error pt st o c f t logs e hinfo hd hf hs)] at hrun
            cases hrun
          | ok u =>
            rw [runPolls_cons_ok pt st ⟨c, 0⟩ o os _
              (stepPoll_delivered pt st o c f t logs hinfo hd hf hs)] at hrun
            exact hnext fin hrun

/-- C3 witness: the amended theorem on a concrete run — seed 3, observed
HEADs 5 then 7, both batches fully delivered: `p_rev` rises from 3 to 7
and ends on an observed HEAD. -/
theorem c3_witness :
    (⟨3, 0⟩ : LoopState).p_rev ≤ (⟨7, 0⟩ : LoopState).p_rev
    ∧ (⟨7, 0⟩ : LoopState).p_rev
        ∈ (⟨3, 0⟩ : LoopState).p_rev :: observedHeads [oHead 5 [], oHead 7 []] :=
  c3_monotone_amended 120 [oHead 5 [], oHead 7 []] ⟨3, 0⟩ ⟨7, 0⟩ rfl
    (show List.Chain' (· ≤ ·) [(3 : Int), 5, 7] from by
      norm_num [List.chain'_cons])

/-- C3 as stated is false for a seed above the observed HEADs: with
`p_rev` seeded to 10 and a successful poll observing HEAD 5, the `else`
clause sets `p_rev = c_rev = 5`, a strict DECREASE. -/
theorem c3_counterexample :
    stepPoll 120 ⟨10, 0⟩ (oHead 5 []) = Except.ok (⟨5, 0⟩, 120)
    ∧ ¬ ((10 : Int) ≤ 5) :=
  ⟨rfl, by decide⟩

/-- C4 amended: for every NON-ZERO operator-supplied initial revision `R`,
startup seeds `p_rev` to `R` (not to HEAD), and the first non-empty delta
is `[R+1 .. currentHead]` whenever `currentHead > R` — historical replay
across arbitrarily many revisions; with no initial revision supplied the
seed is the startup HEAD.  (For `R = 0` the truthiness test discards the
argument — see the counterexample and C10.) -/
theorem c4_initial_revision_amended (R startupHead h : Int) (hR : R ≠ 0) :
    seedRevision (some R) startupHead = R
    ∧ (R < h → computeDelta (seedRevision (some R) startupHead) h = some (R + 1, h))
    ∧ seedRevision none startupHead = startupHead := by
  refine ⟨by simp [seedRevision, hR], ?_, rfl⟩
  intro hlt
  simp [seedRevision, hR, computeDelta, hlt]

/-- C4 witness: the amended theorem at `R = 3`, startup HEAD 10, current
HEAD 9: the seed is 3 and the first delta is `[4 .. 9]`. -/
theorem c4_witness :
    seedRevision (some 3) 10 = 3
    ∧ computeDelta (seedRevision (some 3) 10) 9 = some (4, 9) :=
  ⟨(c4_initial_revision_amended 3 10 9 (by decide)).1,
    (c4_initial_revision_amended 3 10 9 (by decide)).2.1 (by decide)⟩

/-- C4 as stated is false at `R = 0`: supplying the explicit initial
revision 0 seeds `p_rev` from the startup HEAD (here 7), not from `R`. -/
theorem c4_counterexample :
    seedRevision (some 0) 7 = 7 ∧ seedRevision (some 0) 7 ≠ 0 := by
  exact ⟨by decide, by decide⟩

/-- C7: starting from backoff 0, three consecutive repository-contact
failures sleep `pt+15 < pt+30 < pt+45`, strictly increasing and each at
most `pt + 120`; every reachable backoff value stays at most 120 (the
step is `min(d+15, 120)`); and a successful poll cycle (`info` succeeded
and, when a delta existed, the fetch succeeded) resets the backoff to 0. -/
theorem c7_backoff_behaviour (pt : Nat) (p : Int) :
    stepPoll pt ⟨p, 0⟩ oInfoFail = Except.ok (⟨p, 15⟩, pt + 15)
    ∧ stepPoll pt ⟨p, 15⟩ oInfoFail = Except.ok (⟨p, 30⟩, pt + 30)
    ∧ stepPoll pt ⟨p, 30⟩ oInfoFail = Except.ok (⟨p, 45⟩, pt + 45)
    ∧ pt + 15 < pt + 30 ∧ pt + 30 < pt + 45 ∧ pt + 45 ≤ pt + 120
    ∧ (∀ (st : LoopState) (o : PollOracle) (st1 : LoopState) (s : Nat),
        stepPoll pt st o = Except.ok (st1, s) → st1.delay ≤ 120)
    ∧ (∀ (st : LoopState) (o : PollOracle) (st1 : LoopState) (s : Nat) (c : Int)
        (logs : List CommitRecord), o.info = Except.ok c →
        o.fetchLog (st.p_rev + 1) c = Except.ok logs →
        stepPoll pt st o = Except.ok (st1, s) → st1.delay = 0) := by
  refine ⟨rfl, rfl, rfl, by omega, by omega, by omega, ?_, ?_⟩
  · intro st o st1 s h
    rcases stepPoll_ok_delay_le pt st o st1 s h with h0 | hb
    · omega
    · have : bumpDelay st.delay ≤ 120 := Nat.min_le_right _ _
      omega
  · intro st o st1 s c logs hinfo hfetch h
    cases hd : computeDelta st.p_rev c with
    | none =>
      rw [stepPoll_no_delta pt st o c hinfo hd] at h
      cases h
      rfl
    | some ft =>
      obtain ⟨f, t⟩ := ft
      have hgt : st.p_rev < c := by
        by_contra hng
        simp [computeDelta, hng] at hd
      have hd2 : computeDelta st.p_rev c = some (st.p_rev + 1, c) := by
        simp [computeDelta, hgt]
      cases hs : deliverAll o.send logs with
      | error e =>
        rw [stepPoll_send_error pt st o c (st.p_rev + 1) c logs e hinfo hd2 hfetch hs] at h
        cases h
      | ok u =>
        rw [stepPoll_delivered pt st o c (st.p_rev + 1) c logs hinfo hd2 hfetch hs] at h
        cases h
        rfl

/-- C7 witness: the theorem at `pt = 120`, `p = 0` — the first failure
sleeps 135 seconds, and a successful empty poll resets the backoff. -/
theorem c7_witness :
    stepPoll 120 ⟨0, 0⟩ oInfoFail = Except.ok (⟨0, 15⟩, 135)
    ∧ (⟨0, 15⟩ : LoopState).delay ≤ 120 := by
  obtain ⟨h1, -, -, -, -, -, hle, -⟩ := c7_backoff_behaviour 120 0
  exact ⟨h1, hle ⟨0, 0⟩ oInfoFail ⟨0, 15⟩ 135 h1⟩

/-- C10: the truthiness test on `args.initial_revision` discards an
explicit initial revision of 0 — the seed is then the startup HEAD,
exactly as when no initial revision was supplied; every non-zero explicit
initial revision is used as the seed. -/
theorem c10_zero_initial_revision (startupHead : Int) :
    seedRevision (some 0) startupHead = startupHead
    ∧ seedRevision none startupHead = startupHead
    ∧ ∀ R : Int, R ≠ 0 → seedRevision (some R) startupHead = R := by
  refine ⟨by simp [seedRevision], rfl, ?_⟩
  intro R hR
  simp [seedRevision, hR]

/-- C10 witness: the theorem at startup HEAD 42 with `R = 5`. -/
theorem c10_witness :
    seedRevision (some 0) 42 = 42 ∧ seedRevision (some 5) 42 = 5 :=
  ⟨(c10_zero_initial_revision 42).1, (c10_zero_initial_revision 42).2.2 5 (by decide)⟩

end Epsilon
